import Mathlib

/-!
Verification development for the PipeHub server core
(`src/server/src/main.rs`, `src/server/src/models.rs`,
`src/server/src/config.rs`).

The Rust code is shallowly embedded as follows:
* bytes are `Nat` values `< 256`; an `i64` is an `Int` in `[-2^63, 2^63)`,
  and `i64::to_le_bytes` takes the two's-complement bit pattern, i.e. the
  value modulo `2^64`;
* panics (`expect`, `unwrap`, `unimplemented!`) are modelled as `none` of
  an `Option`-valued result;
* `Uuid::new_v4()` is modelled by passing the freshly generated uuid as an
  explicit parameter;
* the logger's `track_request` / `track_trace` calls are modelled as a
  list of emitted trace events returned alongside the response (durations
  and the textual rendering of status codes are abstracted to the numeric
  status, which is all the claims are about);
* serde JSON serialization of a struct is modelled as the ordered list of
  (field name, value) pairs the derived serializer emits;
* the `CookieSession`, `Compress` and `Logger` middleware wrap the three
  `wrap_fn` stages and do not alter the data the claims are about; they
  are modelled as identity.
-/

set_option maxHeartbeats 1000000

namespace PipeHub

/-! ### KeyCodec: the `base58` crate's `ToBase58 for [u8]` -/

/-- The 58-character alphabet of the `base58` crate. -/
def ALPHABET : List Char :=
  ['1','2','3','4','5','6','7','8','9','A','B','C','D','E','F','G','H','J',
   'K','L','M','N','P','Q','R','S','T','U','V','W','X','Y','Z','a','b','c',
   'd','e','f','g','h','i','j','k','m','n','o','p','q','r','s','t','u','v',
   'w','x','y','z']

/-- The alphabet character of a base-58 digit. -/
def alph (d : Nat) : Char := ALPHABET.getD d '?'

/-- Base-58 digits of `n`, most significant first (empty for `0`), as
    produced by the crate's repeated division loop. -/
def toDigits58 : Nat → List Nat
  | 0 => []
  | n + 1 => toDigits58 ((n + 1) / 58) ++ [(n + 1) % 58]
decreasing_by exact Nat.div_lt_self (Nat.succ_pos n) (by norm_num)

/-- Big-endian value of a byte list: the number accumulated by the crate's
    carry loop over the input bytes. -/
def beVal (bs : List Nat) : Nat := bs.foldl (fun acc b => acc * 256 + b) 0

/-- `ToBase58 for [u8]`: one `'1'` per leading zero byte, followed by the
    base-58 digits (most significant first) of the big-endian value of the
    input. -/
def to_base58 (bs : List Nat) : String :=
  String.mk (List.replicate ((bs.takeWhile (fun b => b == 0)).length) '1'
    ++ (toDigits58 (beVal bs)).map alph)

/-- `k` little-endian base-256 bytes of `n`, modelling `to_le_bytes` on
    the bit pattern `n < 2^64` (for `k = 8`). -/
def natToLeBytes : Nat → Nat → List Nat
  | _, 0 => []
  | n, k + 1 => n % 256 :: natToLeBytes (n / 256) k

/-- `t.app_id.to_le_bytes().to_base58()` (models.rs line 26), with the
    `i64` two's-complement bit pattern taken modulo `2^64`. -/
def appKeyOf (x : Int) : String :=
  to_base58 (natToLeBytes (x % (2 : Int) ^ 64).toNat 8)

/-! Verification helpers for the inverse direction of the codec
    (not part of the source; used only to prove injectivity). -/

/-- Verification helper: index of a character in the base-58 alphabet. -/
def unAlph (c : Char) : Nat := ALPHABET.findIdx (fun x => x == c)

/-- Verification helper: value of a most-significant-first digit list. -/
def fromDigits58 (ds : List Nat) : Nat := ds.foldl (fun acc d => acc * 58 + d) 0

/-- Verification helper: `k` big-endian base-256 bytes of `n`. -/
def natToBeBytes : Nat → Nat → List Nat
  | _, 0 => []
  | n, k + 1 => natToBeBytes (n / 256) k ++ [n % 256]

/-! ### models.rs -/

/-- The `Tenant` struct. `id` and `app_id` carry `#[serde(skip)]`. -/
structure Tenant where
  id : Int
  app_id : Int
  github_login : String
  github_id : Int
  block_list : String
deriving DecidableEq

/-- The `UserTenant` struct (the user-facing view of a tenant). -/
structure UserTenant where
  tenant : Tenant
  app_key : String
  callback_url : String
deriving DecidableEq

/-- A JSON value, as far as the serialized structs of this program need. -/
inductive JsonVal
  | str (s : String)
  | bool (b : Bool)
  | int (n : Int)
deriving DecidableEq

/-- Serde serialization of `Tenant` as an ordered JSON object: the fields
    marked `#[serde(skip)]` (`id`, `app_id`) are not emitted; the rest are
    emitted under their Rust field names, in declaration order. -/
def tenantJsonFields (t : Tenant) : List (String × JsonVal) :=
  [("github_login", JsonVal.str t.github_login),
   ("github_id", JsonVal.int t.github_id),
   ("block_list", JsonVal.str t.block_list)]

/-- `impl From<Tenant> for UserTenant` (models.rs lines 24-35). `env`
    models `std::env::var`; the `unwrap()` panic when `pipehub_domain` is
    absent is modelled as `none`. -/
def userTenantFrom (env : String → Option String) (t : Tenant) : Option UserTenant :=
  let app_key := appKeyOf t.app_id
  match env "pipehub_domain" with
  | none => none
  | some domain =>
      some { tenant := t, app_key := app_key
             callback_url := domain ++ "/send/" ++ app_key }

/-! ### main.rs: the request pipeline -/

/-- A UUID, abstracted to its hyphenated string rendering. -/
structure Uuid where
  val : String
deriving DecidableEq

/-- HTTP methods. -/
inductive Method
  | GET | HEAD | POST | PUT | DELETE
  | other (s : String)
deriving DecidableEq

/-- `Method::to_string()`. -/
def Method.toStr : Method → String
  | .GET => "GET"
  | .HEAD => "HEAD"
  | .POST => "POST"
  | .PUT => "PUT"
  | .DELETE => "DELETE"
  | .other s => s

/-- A response body (`actix_http::body::Body`): empty, an opaque payload,
    or the JSON serialization of a struct (kept structured). -/
inductive Body
  | empty
  | str (s : String)
  | json (fields : List (String × JsonVal))
deriving DecidableEq

/-- A response: status code, headers, body, and the response extensions,
    of which the program only ever stores a `String` error message. -/
structure HttpResponseM where
  status : Nat
  headers : List (String × String)
  body : Body
  error_message : Option String
deriving DecidableEq

/-- A `ServiceRequest`: method, uri (path plus optional query string), and
    the request extensions, of which the program only ever stores the
    correlation `Uuid`. -/
structure ServiceRequestM where
  method : Method
  uri : String
  request_id : Option Uuid
deriving DecidableEq

/-- One call to the application logger: `logger.track_request(request_id,
    method, uri, duration, status)` or `logger.track_trace(request_id,
    level, message)` (duration and severity level abstracted away). -/
inductive TraceEvent
  | request (id : Uuid) (method : String) (path : String) (status : Nat)
  | trace (id : Uuid) (message : String)
deriving DecidableEq

/-- A service: what a middleware's `srv.call(req)` invokes. `none` models
    a panic; events are the logger calls made while handling the request. -/
abbrev Handler := ServiceRequestM → Option (HttpResponseM × List TraceEvent)

/-- `Uri::from_str(req.uri().path())`: the request path with the query
    string removed. -/
def uriPath (u : String) : String := String.mk (u.data.takeWhile (fun c => c != '?'))

/-- The `Response` struct of main.rs (the JSON error envelope). -/
structure Response where
  request_id : Uuid
  success : Bool
  error_message : String
deriving DecidableEq

/-- Serde serialization of `Response` as an ordered JSON object: the
    derived serializer emits the Rust field names verbatim (there is no
    rename attribute on the struct), and a `Uuid` as its hyphenated
    string. -/
def responseFields (r : Response) : List (String × JsonVal) :=
  [("request_id", JsonVal.str r.request_id.val),
   ("success", JsonVal.bool r.success),
   ("error_message", JsonVal.str r.error_message)]

/-- `request_id_injector` (main.rs lines 141-151): generate a fresh
    correlation id (passed here as `fresh`) and insert it into the request
    extensions before calling the inner service. -/
def request_id_injector (fresh : Uuid) (srv : Handler) : Handler :=
  fun req => srv { req with request_id := some fresh }

/-- `HttpResponse::InternalServerError().json(Response { .. })`: a fresh
    500 response carrying the serialized envelope; its extensions are
    fresh, so it has no attached error message. -/
def errorResponse (rid : Uuid) (msg : String) : HttpResponseM :=
  { status := 500
    headers := [("content-type", "application/json")]
    body := Body.json (responseFields
      { request_id := rid, success := false, error_message := msg })
    error_message := none }

/-- `track_request` (main.rs lines 153-207). Reads the correlation id from
    the request extensions (`expect` = `none` when absent), captures the
    method and query-stripped path before dispatch, then: a response whose
    status is not `INTERNAL_SERVER_ERROR` (500) passes through unchanged
    with one `track_request` logger call; a 500 response must carry an
    attached error message (`expect` = `none` when absent), is logged with
    `track_trace` then `track_request`, and is replaced by the JSON error
    envelope. -/
def track_request (srv : Handler) : Handler := fun req =>
  match req.request_id with
  | none => none
  | some request_id =>
    let method := req.method.toStr
    let path := uriPath req.uri
    match srv req with
    | none => none
    | some (response, evs) =>
      if response.status ≠ 500 then
        some (response,
          evs ++ [TraceEvent.request request_id method path response.status])
      else
        match response.error_message with
        | none => none
        | some error_message =>
          some (errorResponse request_id error_message,
            evs ++ [TraceEvent.trace request_id error_message,
                    TraceEvent.request request_id method path response.status])

/-- `head_request` (main.rs lines 209-228): a `HEAD` request is dispatched
    with its method rewritten to `GET`, and the inner response's body is
    discarded (`map_body` to `Body::Empty`) on the way out; any other
    request passes through unchanged. -/
def head_request (srv : Handler) : Handler := fun req =>
  if req.method = Method.HEAD then
    match srv { req with method := Method.GET } with
    | none => none
    | some (res, evs) => some ({ res with body := Body.empty }, evs)
  else
    srv req

/-- The `wrap_fn` chain of `main` (main.rs lines 80-82):
    `.wrap_fn(head_request).wrap_fn(track_request).wrap_fn(request_id_injector)`.
    Each `wrap_fn` wraps the service built so far, so the last registered
    stage is the outermost one. -/
def appPipeline (fresh : Uuid) (handler : Handler) : Handler :=
  List.foldl (fun acc mw => mw acc) handler
    [head_request, track_request, request_id_injector fresh]

/-- The method a route handler observes after HEAD normalization. -/
def normMethod (m : Method) : Method := if m = Method.HEAD then Method.GET else m

/-- Modelled from the spec: the stage order asserted by the spec's
    RequestPipeline section — HEAD normalization outermost, then
    request-id assignment, then tracking, with the route handler
    innermost. -/
def specOrderPipeline (fresh : Uuid) (handler : Handler) : Handler :=
  head_request (request_id_injector fresh (track_request handler))

/-! ### Concrete data used by witnesses and counterexamples -/

def uuidA : Uuid := { val := "00000000-0000-4000-8000-000000000001" }

def okRes : HttpResponseM :=
  { status := 200, headers := [("x-k", "v")], body := Body.str "hello"
    error_message := none }

def res502 : HttpResponseM :=
  { status := 502, headers := [], body := Body.str "orig"
    error_message := some "boom" }

def res500 : HttpResponseM :=
  { status := 500, headers := [], body := Body.str "orig"
    error_message := some "boom" }

def res500NoMsg : HttpResponseM :=
  { status := 500, headers := [], body := Body.str "orig"
    error_message := none }

def okHandler : Handler := fun _ => some (okRes, [])

def err502Handler : Handler := fun _ => some (res502, [])

def err500Handler : Handler := fun _ => some (res500, [])

def err500NoMsgHandler : Handler := fun _ => some (res500NoMsg, [])

def headReq : ServiceRequestM :=
  { method := Method.HEAD, uri := "/ping?x=1", request_id := none }

def postReq : ServiceRequestM :=
  { method := Method.POST, uri := "/send/abc?k=v", request_id := none }

def reqWithId : ServiceRequestM :=
  { method := Method.POST, uri := "/send/abc", request_id := some uuidA }

def envA : String → Option String :=
  fun k => if k = "pipehub_domain" then some "https://pipehub.net" else none

def envNone : String → Option String := fun _ => none

def tenantA : Tenant :=
  { id := 1, app_id := 2, github_login := "alice", github_id := 7, block_list := "" }

def tenantB : Tenant :=
  { id := 3, app_id := 4, github_login := "alice", github_id := 7, block_list := "" }

/-! ### Lemmas about the base-58 codec -/

lemma fromDigits58_concat (l : List Nat) (d : Nat) :
    fromDigits58 (l ++ [d]) = fromDigits58 l * 58 + d := by
  simp [fromDigits58, List.foldl_append]

lemma fromDigits58_toDigits58 (n : Nat) : fromDigits58 (toDigits58 n) = n := by
  induction n using Nat.strong_induction_on with
  | _ n ih =>
    match n with
    | 0 => simp [toDigits58, fromDigits58]
    | m + 1 =>
      rw [toDigits58, fromDigits58_concat,
        ih ((m + 1) / 58) (Nat.div_lt_self (Nat.succ_pos m) (by norm_num))]
      omega

lemma toDigits58_lt (n : Nat) : ∀ d ∈ toDigits58 n, d < 58 := by
  induction n using Nat.strong_induction_on with
  | _ n ih =>
    match n with
    | 0 => simp [toDigits58]
    | m + 1 =>
      rw [toDigits58]
      intro d hd
      rcases List.mem_append.mp hd with h | h
      · exact ih ((m + 1) / 58) (Nat.div_lt_self (Nat.succ_pos m) (by norm_num)) d h
      · simp only [List.mem_singleton] at h
        omega

lemma toDigits58_head (n : Nat) (hn : n ≠ 0) :
    ∃ d t, toDigits58 n = d :: t ∧ d ≠ 0 := by
  induction n using Nat.strong_induction_on with
  | _ n ih =>
    match n with
    | 0 => exact absurd rfl hn
    | m + 1 =>
      rw [toDigits58]
      by_cases h : (m + 1) / 58 = 0
      · refine ⟨(m + 1) % 58, [], ?_, ?_⟩
        · simp [h, toDigits58]
        · omega
      · obtain ⟨d, t, ht, hd⟩ :=
          ih ((m + 1) / 58) (Nat.div_lt_self (Nat.succ_pos m) (by norm_num)) h
        exact ⟨d, t ++ [(m + 1) % 58], by rw [ht]; rfl, hd⟩

lemma unAlph_alph : ∀ d < 58, unAlph (alph d) = d := by decide

lemma alph_ne_one : ∀ d < 58, d ≠ 0 → (alph d == '1') = false := by decide

lemma map_unAlph_alph (ds : List Nat) (h : ∀ d ∈ ds, d < 58) :
    (ds.map alph).map unAlph = ds := by
  induction ds with
  | nil => rfl
  | cons d t ih =>
    simp only [List.map_cons, List.cons.injEq]
    exact ⟨unAlph_alph d (h d (List.mem_cons_self d t)),
      ih fun x hx => h x (List.mem_cons_of_mem d hx)⟩

lemma beVal_concat (l : List Nat) (b : Nat) :
    beVal (l ++ [b]) = beVal l * 256 + b := by
  simp [beVal, List.foldl_append]

lemma natToBeBytes_beVal (bs : List Nat) (h : ∀ b ∈ bs, b < 256) :
    natToBeBytes (beVal bs) bs.length = bs := by
  induction bs using List.reverseRecOn with
  | nil => rfl
  | append_singleton l b ih =>
    have hb : b < 256 := h b (by simp)
    rw [beVal_concat, List.length_append, List.length_singleton, natToBeBytes]
    have h1 : (beVal l * 256 + b) / 256 = beVal l := by omega
    have h2 : (beVal l * 256 + b) % 256 = b := by omega
    rw [h1, h2, ih fun x hx => h x (List.mem_append_left _ hx)]

lemma takeWhile_replicate_append (z : Nat) (l : List Char)
    (h : ∀ c t, l = c :: t → (c == '1') = false) :
    (List.replicate z '1' ++ l).takeWhile (fun c => c == '1') =
      List.replicate z '1' := by
  induction z with
  | zero =>
    simp only [List.replicate_zero, List.nil_append]
    cases l with
    | nil => rfl
    | cons c t => simp [List.takeWhile_cons, h c t rfl]
  | succ n ih =>
    simp only [List.replicate_succ, List.cons_append, List.takeWhile_cons]
    simp [ih]

lemma to_base58_data (bs : List Nat) :
    (to_base58 bs).data =
      List.replicate ((bs.takeWhile (fun b => b == 0)).length) '1'
        ++ (toDigits58 (beVal bs)).map alph := rfl

lemma to_base58_recover (bs : List Nat) (h : ∀ b ∈ bs, b < 256) :
    natToBeBytes
      (fromDigits58
        (((to_base58 bs).data.drop
            (((to_base58 bs).data.takeWhile (fun c => c == '1')).length)).map unAlph))
      bs.length = bs := by
  have hdig : ∀ d ∈ toDigits58 (beVal bs), d < 58 := toDigits58_lt (beVal bs)
  have hones : (to_base58 bs).data.takeWhile (fun c => c == '1') =
      List.replicate ((bs.takeWhile (fun b => b == 0)).length) '1' := by
    rw [to_base58_data]
    apply takeWhile_replicate_append
    intro c t hct
    by_cases hz : beVal bs = 0
    · rw [hz] at hct
      simp [toDigits58] at hct
    · obtain ⟨d, t', ht', hd⟩ := toDigits58_head (beVal bs) hz
      rw [ht'] at hct
      simp only [List.map_cons, List.cons.injEq] at hct
      rw [← hct.1]
      exact alph_ne_one d (hdig d (by rw [ht']; exact List.mem_cons_self d t')) hd
  rw [hones, to_base58_data, List.length_replicate, List.drop_left',
    map_unAlph_alph _ hdig, fromDigits58_toDigits58]
  · exact natToBeBytes_beVal bs h
  · simp

lemma to_base58_injOn (bs cs : List Nat) (hlen : bs.length = cs.length)
    (hb : ∀ b ∈ bs, b < 256) (hc : ∀ b ∈ cs, b < 256)
    (heq : to_base58 bs = to_base58 cs) : bs = cs := by
  have h1 := to_base58_recover bs hb
  have h2 := to_base58_recover cs hc
  rw [← heq, ← hlen] at h2
  rw [← h1, ← h2]

lemma natToLeBytes_length (n k : Nat) : (natToLeBytes n k).length = k := by
  induction k generalizing n with
  | zero => rfl
  | succ m ih => simp [natToLeBytes, ih]

lemma natToLeBytes_lt (n k : Nat) : ∀ b ∈ natToLeBytes n k, b < 256 := by
  induction k generalizing n with
  | zero => simp [natToLeBytes]
  | succ m ih =>
    intro b hb
    rw [natToLeBytes] at hb
    rcases List.mem_cons.mp hb with h | h
    · omega
    · exact ih (n / 256) b h

lemma natToLeBytes_injOn (k n m : Nat) (hn : n < 256 ^ k) (hm : m < 256 ^ k)
    (heq : natToLeBytes n k = natToLeBytes m k) : n = m := by
  induction k generalizing n m with
  | zero =>
    simp only [pow_zero, Nat.lt_one_iff] at hn hm
    omega
  | succ j ih =>
    rw [natToLeBytes, natToLeBytes] at heq
    have h1 : n % 256 = m % 256 := (List.cons.injEq _ _ _ _ ▸ heq).1
    have h2 : natToLeBytes (n / 256) j = natToLeBytes (m / 256) j :=
      (List.cons.injEq _ _ _ _ ▸ heq).2
    have hpow : (256 : Nat) ^ (j + 1) = 256 ^ j * 256 := by ring
    rw [hpow] at hn hm
    have hn' : n / 256 < 256 ^ j := Nat.div_lt_of_lt_mul (by omega)
    have hm' : m / 256 < 256 ^ j := Nat.div_lt_of_lt_mul (by omega)
    have := ih (n / 256) (m / 256) hn' hm' h2
    omega

/-- C7: app-key encoding is deterministic and injective. `appKeyOf x` is
    by definition the base-58 encoding of the fixed-width 8-byte
    little-endian two's-complement representation of the `i64` value `x`;
    equal ids give equal keys, and over the whole `i64` range the encoding
    is injective. -/
theorem app_key_encoding_injective :
    ∀ x y : Int, -(2 ^ 63) ≤ x → x < 2 ^ 63 → -(2 ^ 63) ≤ y → y < 2 ^ 63 →
      (appKeyOf x = to_base58 (natToLeBytes (x % (2 : Int) ^ 64).toNat 8)) ∧
      (x = y → appKeyOf x = appKeyOf y) ∧
      (appKeyOf x = appKeyOf y → x = y) := by
  intro x y hx1 hx2 hy1 hy2
  refine ⟨rfl, fun h => by rw [h], fun heq => ?_⟩
  have hxm := Int.emod_lt_of_pos x (show (0 : Int) < 2 ^ 64 by norm_num)
  have hym := Int.emod_lt_of_pos y (show (0 : Int) < 2 ^ 64 by norm_num)
  have hx0 := Int.emod_nonneg x (show ((2 : Int) ^ 64) ≠ 0 by norm_num)
  have hy0 := Int.emod_nonneg y (show ((2 : Int) ^ 64) ≠ 0 by norm_num)
  have hxb : (x % (2 : Int) ^ 64).toNat < 256 ^ 8 := by
    have h256 : (256 : Nat) ^ 8 = 2 ^ 64 := by norm_num
    rw [h256]
    omega
  have hyb : (y % (2 : Int) ^ 64).toNat < 256 ^ 8 := by
    have h256 : (256 : Nat) ^ 8 = 2 ^ 64 := by norm_num
    rw [h256]
    omega
  have hbytes := to_base58_injOn _ _
    (by rw [natToLeBytes_length, natToLeBytes_length])
    (natToLeBytes_lt _ 8) (natToLeBytes_lt _ 8) heq
  have hnat := natToLeBytes_injOn 8 _ _ hxb hyb hbytes
  have hmod : x % (2 : Int) ^ 64 = y % (2 : Int) ^ 64 := by
    rw [← Int.toNat_of_nonneg hx0, ← Int.toNat_of_nonneg hy0, hnat]
  omega

/-- Witness for C7 at the concrete id 5. -/
theorem app_key_encoding_injective_witness :
    (5 : Int) = 5 ∧ appKeyOf 5 = appKeyOf 5 :=
  ⟨(app_key_encoding_injective 5 5 (by norm_num) (by norm_num) (by norm_num)
      (by norm_num)).2.2 rfl,
   (app_key_encoding_injective 5 5 (by norm_num) (by norm_num) (by norm_num)
      (by norm_num)).2.1 rfl⟩

/-! ### Lemmas about the request pipeline -/

lemma track_request_ok (srv : Handler) (req : ServiceRequestM) (rid : Uuid)
    (res : HttpResponseM) (evs : List TraceEvent)
    (hid : req.request_id = some rid) (hs : srv req = some (res, evs))
    (hst : res.status ≠ 500) :
    track_request srv req =
      some (res, evs ++
        [TraceEvent.request rid req.method.toStr (uriPath req.uri) res.status]) := by
  simp only [track_request, hid, hs]
  rw [if_pos hst]

lemma track_request_err (srv : Handler) (req : ServiceRequestM) (rid : Uuid)
    (res : HttpResponseM) (evs : List TraceEvent) (msg : String)
    (hid : req.request_id = some rid) (hs : srv req = some (res, evs))
    (hst : res.status = 500) (hmsg : res.error_message = some msg) :
    track_request srv req =
      some (errorResponse rid msg,
        evs ++ [TraceEvent.trace rid msg,
                TraceEvent.request rid req.method.toStr (uriPath req.uri) 500]) := by
  simp only [track_request, hid, hs]
  rw [if_neg (not_not_intro hst)]
  simp only [hmsg, hst]

lemma head_request_hd (srv : Handler) (req : ServiceRequestM)
    (res : HttpResponseM) (evs : List TraceEvent)
    (hm : req.method = Method.HEAD)
    (hs : srv { req with method := Method.GET } = some (res, evs)) :
    head_request srv req = some ({ res with body := Body.empty }, evs) := by
  simp only [head_request, hm, if_true]
  simp [hs]

lemma head_request_not_hd (srv : Handler) (req : ServiceRequestM)
    (hm : req.method ≠ Method.HEAD) :
    head_request srv req = srv req := by
  simp [head_request, hm]

lemma pipeline_ok (fresh : Uuid) (handler : Handler) (req : ServiceRequestM)
    (res : HttpResponseM) (evs : List TraceEvent)
    (hh : handler { req with method := normMethod req.method, request_id := some fresh } =
      some (res, evs))
    (hst : res.status ≠ 500) :
    appPipeline fresh handler req =
      some ((if req.method = Method.HEAD then { res with body := Body.empty } else res),
        evs ++ [TraceEvent.request fresh req.method.toStr (uriPath req.uri) res.status]) := by
  have hpipe : appPipeline fresh handler req =
      track_request (head_request handler) { req with request_id := some fresh } := rfl
  rw [hpipe]
  by_cases h : req.method = Method.HEAD
  · have hnm : normMethod req.method = Method.GET := by simp [normMethod, h]
    rw [hnm] at hh
    have hhead : head_request handler { req with request_id := some fresh } =
        some ({ res with body := Body.empty }, evs) :=
      head_request_hd handler { req with request_id := some fresh } res evs h hh
    rw [if_pos h]
    exact track_request_ok (head_request handler) { req with request_id := some fresh }
      fresh { res with body := Body.empty } evs rfl hhead hst
  · have hnm : normMethod req.method = req.method := by simp [normMethod, h]
    rw [hnm] at hh
    have hhead : head_request handler { req with request_id := some fresh } =
        some (res, evs) := by
      rw [head_request_not_hd handler { req with request_id := some fresh } h]
      exact hh
    rw [if_neg h]
    exact track_request_ok (head_request handler) { req with request_id := some fresh }
      fresh res evs rfl hhead hst

lemma pipeline_err (fresh : Uuid) (handler : Handler) (req : ServiceRequestM)
    (res : HttpResponseM) (evs : List TraceEvent) (msg : String)
    (hh : handler { req with method := normMethod req.method, request_id := some fresh } =
      some (res, evs))
    (hst : res.status = 500) (hmsg : res.error_message = some msg) :
    appPipeline fresh handler req =
      some (errorResponse fresh msg,
        evs ++ [TraceEvent.trace fresh msg,
                TraceEvent.request fresh req.method.toStr (uriPath req.uri) 500]) := by
  have hpipe : appPipeline fresh handler req =
      track_request (head_request handler) { req with request_id := some fresh } := rfl
  rw [hpipe]
  by_cases h : req.method = Method.HEAD
  · have hnm : normMethod req.method = Method.GET := by simp [normMethod, h]
    rw [hnm] at hh
    have hhead : head_request handler { req with request_id := some fresh } =
        some ({ res with body := Body.empty }, evs) :=
      head_request_hd handler { req with request_id := some fresh } res evs h hh
    exact track_request_err (head_request handler) { req with request_id := some fresh }
      fresh { res with body := Body.empty } evs msg rfl hhead hst hmsg
  · have hnm : normMethod req.method = req.method := by simp [normMethod, h]
    rw [hnm] at hh
    have hhead : head_request handler { req with request_id := some fresh } =
        some (res, evs) := by
      rw [head_request_not_hd handler { req with request_id := some fresh } h]
      exact hh
    exact track_request_err (head_request handler) { req with request_id := some fresh }
      fresh res evs msg rfl hhead hst hmsg

/-! ### Claim theorems -/

/-- C1, counterexample to the claim as stated: a 502 response — a server
    error in the 5xx sense — passes through the tracking stage with its
    body unchanged (`"orig"`), which is not the JSON error envelope
    carrying the request's correlation id. The code rewrites exactly
    status 500 (`StatusCode::INTERNAL_SERVER_ERROR`), not all 5xx. -/
theorem five_xx_not_rewritten :
    appPipeline uuidA err502Handler postReq =
      some (res502, [TraceEvent.request uuidA "POST" "/send/abc" 502]) ∧
    500 ≤ res502.status ∧ res502.status < 600 ∧
    res502.body = Body.str "orig" ∧
    res502.body ≠ Body.json (responseFields
      { request_id := uuidA, success := false, error_message := "boom" }) := by
  refine ⟨by decide, by decide, by decide, rfl, by decide⟩

/-- C1 (amended to status exactly 500): whenever the inner service
    produces a response with status 500 carrying an attached error
    message, the pipeline replaces the body with the JSON error envelope
    whose `request_id` is the correlation id `fresh`, and both trace
    events emitted for that request carry the same id `fresh`. -/
theorem server_error_envelope_matches_trace :
    ∀ (fresh : Uuid) (handler : Handler) (req : ServiceRequestM)
      (res : HttpResponseM) (evs : List TraceEvent) (msg : String),
      handler { req with method := normMethod req.method, request_id := some fresh } =
          some (res, evs) →
      res.status = 500 → res.error_message = some msg →
      appPipeline fresh handler req =
        some (errorResponse fresh msg,
          evs ++ [TraceEvent.trace fresh msg,
                  TraceEvent.request fresh req.method.toStr (uriPath req.uri) 500]) :=
  fun fresh handler req res evs msg hh hst hmsg =>
    pipeline_err fresh handler req res evs msg hh hst hmsg

/-- Witness for C1's amended theorem at a concrete 500 response. -/
theorem server_error_envelope_matches_trace_witness :
    appPipeline uuidA err500Handler postReq =
      some (errorResponse uuidA "boom",
        [] ++ [TraceEvent.trace uuidA "boom",
               TraceEvent.request uuidA postReq.method.toStr (uriPath postReq.uri) 500]) :=
  server_error_envelope_matches_trace uuidA err500Handler postReq res500 [] "boom"
    rfl rfl rfl

/-- C2, counterexample to the claim as stated: the envelope's serialized
    keys are the Rust field names `request_id` / `success` /
    `error_message` (there is no serde rename attribute), not the claimed
    `requestId` / `success` / `errorMessage`. -/
theorem envelope_camel_keys_counterexample :
    (responseFields { request_id := uuidA, success := false, error_message := "boom" }).map
        Prod.fst = ["request_id", "success", "error_message"] ∧
    (responseFields { request_id := uuidA, success := false, error_message := "boom" }).map
        Prod.fst ≠ ["requestId", "success", "errorMessage"] ∧
    track_request err500Handler reqWithId =
      some (errorResponse uuidA "boom",
        [TraceEvent.trace uuidA "boom",
         TraceEvent.request uuidA "POST" "/send/abc" 500]) := by
  refine ⟨rfl, by decide, by decide⟩

/-- C2 (amended to the snake_case spelling): every envelope written by the
    tracking stage for a 500 response serializes with exactly the keys
    `request_id` (the UUID string), `success` (`false`) and
    `error_message` (a string), in that order. -/
theorem envelope_fields_snake_case :
    ∀ (srv : Handler) (req : ServiceRequestM) (rid : Uuid)
      (res : HttpResponseM) (evs : List TraceEvent) (msg : String),
      req.request_id = some rid → srv req = some (res, evs) →
      res.status = 500 → res.error_message = some msg →
      track_request srv req =
        some (errorResponse rid msg,
          evs ++ [TraceEvent.trace rid msg,
                  TraceEvent.request rid req.method.toStr (uriPath req.uri) 500]) ∧
      responseFields { request_id := rid, success := false, error_message := msg } =
        [("request_id", JsonVal.str rid.val), ("success", JsonVal.bool false),
         ("error_message", JsonVal.str msg)] := by
  intro srv req rid res evs msg hid hs hst hmsg
  exact ⟨track_request_err srv req rid res evs msg hid hs hst hmsg, rfl⟩

/-- Witness for C2's amended theorem at a concrete 500 response. -/
theorem envelope_fields_snake_case_witness :
    track_request err500Handler reqWithId =
      some (errorResponse uuidA "boom",
        [] ++ [TraceEvent.trace uuidA "boom",
               TraceEvent.request uuidA reqWithId.method.toStr (uriPath reqWithId.uri) 500]) ∧
    responseFields { request_id := uuidA, success := false, error_message := "boom" } =
      [("request_id", JsonVal.str uuidA.val), ("success", JsonVal.bool false),
       ("error_message", JsonVal.str "boom")] :=
  envelope_fields_snake_case err500Handler reqWithId uuidA res500 [] "boom"
    rfl rfl rfl rfl

/-- C3: evaluating the pipeline on a 500 response that carries no attached
    error message. The code's `.expect("No error message found.")` panics
    (modelled as `none`) in every build; it does not substitute a generic
    message in production, contrary to the claim. -/
theorem tracking_panics_without_message :
    appPipeline uuidA err500NoMsgHandler postReq = none := rfl

/-- C4: a HEAD request is dispatched with its method rewritten to GET and
    the inner response comes back with status, headers and extensions
    unchanged but an empty body; a non-HEAD request passes through
    `head_request` unchanged. -/
theorem head_request_behavior :
    ∀ (srv : Handler) (req : ServiceRequestM),
      (∀ res evs, req.method = Method.HEAD →
        srv { req with method := Method.GET } = some (res, evs) →
        head_request srv req = some ({ res with body := Body.empty }, evs)) ∧
      (req.method ≠ Method.HEAD → head_request srv req = srv req) := by
  intro srv req
  exact ⟨fun res evs hm hs => head_request_hd srv req res evs hm hs,
         fun hm => head_request_not_hd srv req hm⟩

/-- Witness for C4 at a concrete HEAD request and a concrete POST request. -/
theorem head_request_behavior_witness :
    head_request okHandler headReq = some ({ okRes with body := Body.empty }, []) ∧
    head_request okHandler postReq = okHandler postReq :=
  ⟨(head_request_behavior okHandler headReq).1 okRes [] rfl rfl,
   (head_request_behavior okHandler postReq).2 (by decide)⟩

/-- C5, counterexample to the claimed stage order: with the spec's order
    (HEAD normalization outermost, then request-id, then tracking) the
    trace event for a HEAD request would record the normalized method
    `GET`; the pipeline built in `main` records the original `HEAD`, so
    the two compositions differ observably at this input. -/
theorem pipeline_stage_order_spec_counterexample :
    specOrderPipeline uuidA okHandler headReq ≠ appPipeline uuidA okHandler headReq ∧
    appPipeline uuidA okHandler headReq =
      some ({ okRes with body := Body.empty },
        [TraceEvent.request uuidA "HEAD" "/ping" 200]) ∧
    specOrderPipeline uuidA okHandler headReq =
      some ({ okRes with body := Body.empty },
        [TraceEvent.request uuidA "GET" "/ping" 200]) := by
  refine ⟨by decide, by decide, by decide⟩

/-- C5 (amended): the stages execute with request-id assignment outermost,
    then tracking/error normalization, then HEAD normalization, with the
    route handler innermost — each `wrap_fn` in `main` wraps the service
    built so far, so the last registered stage is outermost. -/
theorem pipeline_stage_order :
    ∀ (fresh : Uuid) (handler : Handler) (req : ServiceRequestM),
      appPipeline fresh handler req =
        request_id_injector fresh (track_request (head_request handler)) req :=
  fun _ _ _ => rfl

/-- C6: the trace event emitted by the tracking stage records the method
    as originally received (`HEAD`, not the normalized `GET`, since HEAD
    normalization is nested inside tracking) and the request path with the
    query string stripped — in the pass-through branch and in the
    error-rewrite branch alike. -/
theorem trace_uses_original_method_and_path :
    ∀ (fresh : Uuid) (handler : Handler) (req : ServiceRequestM)
      (res : HttpResponseM) (evs : List TraceEvent),
      handler { req with method := normMethod req.method, request_id := some fresh } =
          some (res, evs) →
      (res.status ≠ 500 →
        appPipeline fresh handler req =
          some ((if req.method = Method.HEAD then { res with body := Body.empty } else res),
            evs ++ [TraceEvent.request fresh req.method.toStr (uriPath req.uri) res.status])) ∧
      (∀ msg, res.status = 500 → res.error_message = some msg →
        appPipeline fresh handler req =
          some (errorResponse fresh msg,
            evs ++ [TraceEvent.trace fresh msg,
                    TraceEvent.request fresh req.method.toStr (uriPath req.uri) 500])) := by
  intro fresh handler req res evs hh
  exact ⟨fun hst => pipeline_ok fresh handler req res evs hh hst,
         fun msg hst hmsg => pipeline_err fresh handler req res evs msg hh hst hmsg⟩

/-- Witness for C6 at a concrete HEAD request with a query string: the
    emitted event records method `HEAD` and path `/ping`. -/
theorem trace_uses_original_method_and_path_witness :
    appPipeline uuidA okHandler headReq =
      some ((if headReq.method = Method.HEAD then { okRes with body := Body.empty } else okRes),
        [] ++ [TraceEvent.request uuidA headReq.method.toStr (uriPath headReq.uri)
                 okRes.status]) :=
  (trace_uses_original_method_and_path uuidA okHandler headReq okRes [] rfl).1 (by decide)

/-- C9: serde serialization of `Tenant` skips `id` and `app_id`, so two
    tenants that differ only in those fields serialize identically, and
    the output contains exactly the fields `github_login`, `github_id`,
    `block_list`. -/
theorem tenant_serialization_hides_ids :
    ∀ t1 t2 : Tenant,
      t1.github_login = t2.github_login → t1.github_id = t2.github_id →
      t1.block_list = t2.block_list →
      tenantJsonFields t1 = tenantJsonFields t2 ∧
      (tenantJsonFields t1).map Prod.fst = ["github_login", "github_id", "block_list"] := by
  intro t1 t2 h1 h2 h3
  exact ⟨by simp [tenantJsonFields, h1, h2, h3], rfl⟩

/-- Witness for C9: two concrete tenants differing exactly in `id` and
    `app_id`. -/
theorem tenant_serialization_hides_ids_witness :
    tenantA ≠ tenantB ∧
    tenantJsonFields tenantA = tenantJsonFields tenantB ∧
    (tenantJsonFields tenantA).map Prod.fst = ["github_login", "github_id", "block_list"] :=
  ⟨by decide, (tenant_serialization_hides_ids tenantA tenantB rfl rfl rfl).1,
   (tenant_serialization_hides_ids tenantA tenantB rfl rfl rfl).2⟩

/-- C10: converting a `Tenant` to its user-facing view panics (modelled as
    `none`) unless `pipehub_domain` is set; when it is set to `d`, the
    view's `app_key` is the base-58 encoding of the tenant's `app_id` and
    its `callback_url` is `d ++ "/send/" ++ app_key`. -/
theorem user_tenant_requires_domain :
    ∀ (env : String → Option String) (t : Tenant),
      (env "pipehub_domain" = none → userTenantFrom env t = none) ∧
      (∀ d, env "pipehub_domain" = some d →
        userTenantFrom env t =
          some { tenant := t, app_key := appKeyOf t.app_id
                 callback_url := d ++ "/send/" ++ appKeyOf t.app_id }) := by
  intro env t
  constructor
  · intro h
    simp [userTenantFrom, h]
  · intro d h
    simp [userTenantFrom, h]

/-- Witness for C10 with a concrete environment and tenant. -/
theorem user_tenant_requires_domain_witness :
    userTenantFrom envNone tenantA = none ∧
    userTenantFrom envA tenantA =
      some { tenant := tenantA, app_key := appKeyOf tenantA.app_id
             callback_url := "https://pipehub.net" ++ "/send/" ++ appKeyOf tenantA.app_id } :=
  ⟨(user_tenant_requires_domain envNone tenantA).1 rfl,
   (user_tenant_requires_domain envA tenantA).2 "https://pipehub.net" (by decide)⟩

end PipeHub
